import Mathlib

/-!
Verification development for the nervix python client.

Shallow embedding of the parts of the code base that the claims concern:

* `src/nervix/verbs.py`        — the verb data model and its `validate()` contract
* `src/nervix/channel.py`      — the dispatcher `Core` (backlog, auto-resend list,
                                 cancel, message-handler registry)
* `src/nervix/protocols/nxtcp/connection.py` — the cool-down schedule
* `src/nervix/protocols/nxtcp/encoder.py` / `decoder.py` — the wire codec
* `src/nervix/protocols/base.py` — the host:port address parser

Conventions:
* python `bytes` values are `List Nat` (each element a byte value);
* python `float` seconds are `Rat` (all times appearing in the code are exact);
* python exceptions are `Except` errors;
* a python `deque` is a `List` whose head is the LEFT end of the deque
  (`appendleft` is `cons`, `pop` removes the last element of the list);
* a python `dict` is an association list whose keys are unique.
-/

deriving instance DecidableEq for Except

namespace Nervix

/-- A byte string (python `bytes`). -/
abbrev Bytes := List Nat

/-- The verb data model of `src/nervix/verbs.py`: one constructor per verb
class.  Field order and optionality (`None` ↦ `Option`) follow the python
constructors.  Python's `BaseVerb.__eq__` compares `__dict__`s; since no two
verb classes share the same attribute set, that equality coincides with
structural equality on this inductive type. -/
inductive Verb where
  | login (name : Bytes) (enforce standby persist : Bool)
  | logout (name : Bytes)
  | session (name : Bytes) (state : Option Int)
  | request (name : Bytes) (unidirectional : Bool) (messageref : Option Int)
      (timeout : Option Rat) (payload : Option Bytes)
  | call (unidirectional : Bool) (postref : Option Int) (name : Bytes)
      (payload : Option Bytes)
  | post (postref : Option Int) (payload : Option Bytes)
  | message (messageref : Option Int) (status : Option Int) (payload : Option Bytes)
  | subscribe (name : Bytes) (messageref : Option Int) (topic : Option Bytes)
  | interest (postref : Option Int) (name : Bytes) (status : Option Int)
      (topic : Option Bytes)
  | unsubscribe (name : Bytes) (topic : Option Bytes)
  deriving DecidableEq, Repr

/-- Character test of `validate_name` (`verbs.py`): `0-9 A-Z a-z - _`. -/
def isNameByte (c : Nat) : Bool :=
  (48 ≤ c && c ≤ 57) || (65 ≤ c && c ≤ 90) || (97 ≤ c && c ≤ 122) || c == 45 || c == 95

/-- `validate_name` of `verbs.py`.  The `type(name) != bytes` branch cannot fire
in the typed embedding.  Python raises at the first offending character; only
whether an error is raised (and its message) is modelled. -/
def validate_name (name : Bytes) : Except String Unit :=
  if name.length > 255 then .error "Name exceeded maximum length of 255 characters"
  else if name.length < 1 then .error "Name is shorter than minimium length of 1 character"
  else if name.all isNameByte then .ok ()
  else .error "Name contains invalid character"

/-- `validate_bool` of `verbs.py`: only a runtime type check, which cannot fail
in the typed embedding. -/
def validate_bool (_value : Bool) : Except String Unit := .ok ()

/-- `validate_refnr` of `verbs.py`.  Note the source bound is `nr > 2 ** 32`
(not `2 ** 32 - 1`). -/
def validate_refnr (nr : Option Int) : Except String Unit :=
  match nr with
  | none => .ok ()
  | some n =>
    if n ≤ 0 then .error "Reference number must be greater then zero"
    else if n > 2 ^ 32 then .error "Reference number must be less then 2^32"
    else .ok ()

/-- `validate_timeout` of `verbs.py`. -/
def validate_timeout (timeout : Option Rat) : Except String Unit :=
  match timeout with
  | none => .ok ()
  | some t => if t < 0 then .error "Timeout must be greater or equal to zero" else .ok ()

/-- `validate_payload` of `verbs.py`: `None` is accepted, length must not
exceed `2 ** 15`. -/
def validate_payload (payload : Option Bytes) : Except String Unit :=
  match payload with
  | none => .ok ()
  | some p => if p.length > 2 ^ 15 then .error "Payload size should not exceed 32Kb" else .ok ()

/-- `validate_enum` of `verbs.py`. -/
def validate_enum (value : Option Int) (allowed : List Int) : Except String Unit :=
  match value with
  | none => .ok ()
  | some v => if v ∈ allowed then .ok () else .error "Given enum value is not in the list of allowed values"

/-- The per-class `validate()` methods of `verbs.py`, with the field checks in
source order (the first failing check determines the raised error). -/
def Verb.validate : Verb → Except String Unit
  | .login name enforce standby persist => do
      validate_name name
      validate_bool enforce
      validate_bool standby
      validate_bool persist
  | .logout name => validate_name name
  | .session name state => do
      validate_name name
      validate_enum state [1, 2, 3]
  | .request name unidirectional messageref timeout payload => do
      validate_name name
      validate_bool unidirectional
      validate_refnr messageref
      validate_timeout timeout
      validate_payload payload
  | .call unidirectional postref name payload => do
      validate_bool unidirectional
      validate_refnr postref
      validate_name name
      validate_payload payload
  | .post postref payload => do
      validate_refnr postref
      validate_payload payload
  | .message messageref status payload => do
      validate_refnr messageref
      validate_enum status [0, 1, 2]
      validate_payload payload
  | .subscribe name messageref topic => do
      validate_name name
      validate_refnr messageref
      validate_payload topic
  | .interest postref name status topic => do
      validate_refnr postref
      validate_name name
      validate_enum status [0, 1]
      validate_payload topic
  | .unsubscribe name topic => do
      validate_name name
      validate_payload topic

/-- Python exceptions observable from the dispatcher entry points. -/
inductive PyErr where
  | valueError (msg : String)
  | attributeError
  deriving DecidableEq, Repr

/-- The state of `Core` (`src/nervix/channel.py`) that the claims concern.
`upstream_backlog` is a deque of `(verb, expires)` pairs, head = left end
(`appendleft` side); `expires` is `None` (no deadline) or an absolute
monotonic time. -/
structure CoreState where
  connection_ready : Bool
  upstream_auto_resend : List Verb
  upstream_backlog : List (Verb × Option Rat)
  deriving DecidableEq, Repr

/-- A fresh `Core`: not ready, empty auto-resend list and backlog. -/
def CoreState.init : CoreState :=
  { connection_ready := false, upstream_auto_resend := [], upstream_backlog := [] }

/-- `Core.put_upstream` of `channel.py`.  Returns the new state and the list of
verbs handed to `connection.send_verb` during the call.  `verb.validate()` runs
first; a `ValueError` there aborts before any mutation.  The backlog branch
guards on `ttl and ttl > 0.0`, i.e. `ttl` not `None`, truthy (≠ 0.0) and
positive — equivalent to `0 < ttl`. -/
def put_upstream (s : CoreState) (verb : Verb) (ttl : Option Rat)
    (auto_resend : Bool) (now : Rat) : Except PyErr (CoreState × List Verb) :=
  match verb.validate with
  | .error m => .error (.valueError m)
  | .ok () =>
    let s := if auto_resend then
        { s with upstream_auto_resend := s.upstream_auto_resend ++ [verb] }
      else s
    if s.connection_ready then
      .ok (s, [verb])
    else
      match ttl with
      | some t =>
        if 0 < t then
          .ok ({ s with upstream_backlog := (verb, some (now + t)) :: s.upstream_backlog }, [])
        else .ok (s, [])
      | none => .ok (s, [])

/-- `list.remove` of python: removes the first element equal to `v` (no error
case is modelled; callers guard with a membership test, and removing from a
list without the element leaves it unchanged here). -/
def removeFirst (l : List Verb) (v : Verb) : List Verb :=
  match l with
  | [] => []
  | x :: xs => if x = v then xs else x :: removeFirst xs v

/-- `Core.cancel` of `channel.py`.

The source first removes `verb` from `upstream_auto_resend` if present, then
evaluates `verb in self.upstream_backlog`.  The backlog elements are
`(verb, expires)` TUPLES, so that membership test compares the verb against a
tuple: `tuple.__eq__` returns `NotImplemented` and the reflected
`BaseVerb.__eq__` evaluates `other.__dict__`, which a tuple does not have —
CPython raises `AttributeError` on the first comparison.  Hence: with a
non-empty backlog the call raises; with an empty backlog it returns `False`. -/
def cancel (s : CoreState) (verb : Verb) : Except PyErr (CoreState × Bool) :=
  let s := { s with upstream_auto_resend := removeFirst s.upstream_auto_resend verb }
  match s.upstream_backlog with
  | [] => .ok (s, false)
  | _ :: _ => .error .attributeError

/-- The skip test of the ready-drain loop in `Core.__on_connection_ready`:
`if expire and now > expire: continue`.  `expire` is truthy when it is not
`None` and not `0.0`. -/
def expiredSkip (now : Rat) (exp : Option Rat) : Bool :=
  match exp with
  | some e => decide (e ≠ 0 ∧ e < now)
  | none => false

/-- The drain loop of `Core.__on_connection_ready`: entries are popped from the
RIGHT end of the deque one by one; expired entries are skipped, the rest are
sent.  The argument list is already in pop order (the reversed deque). -/
def drainOrder (now : Rat) : List (Verb × Option Rat) → List Verb
  | [] => []
  | (v, exp) :: rest =>
    if expiredSkip now exp then drainOrder now rest else v :: drainOrder now rest

/-- `Core.__on_connection_ready` of `channel.py`.  On `ready = True` the code
runs `for verb in reversed(self.upstream_auto_resend): backlog.appendleft((verb, None))`
and then pops the deque from the right until empty, sending unexpired entries.
Returns the new state and the verbs handed to `connection.send_verb`, in send
order.  (The `ready = False` branch only notifies connection-lost handlers,
which are outside the modelled state.) -/
def on_connection_ready (s : CoreState) (ready : Bool) (now : Rat) :
    CoreState × List Verb :=
  if ready then
    let deq := s.upstream_auto_resend.reverse.foldl
      (fun d v => ((v, (none : Option Rat)) :: d)) s.upstream_backlog
    ({ s with connection_ready := true, upstream_backlog := [] },
      drainOrder now deq.reverse)
  else
    ({ s with connection_ready := false }, [])

/-- What kind of object registered a messageref handler in
`Core.message_handlers`.  A `Request` registers `Request.__on_message`, which
invokes the application handlers and then calls `discard_messageref`; a
`Subscription` registers `Subscription.__on_message` (`channel.py`), which
invokes the application handlers and does NOT discard the messageref. -/
inductive MsgHandlerKind where
  | request
  | subscription
  deriving DecidableEq, Repr

/-- `Core.message_handlers`: a dict `messageref → handler`, modelled as an
association list with unique keys. -/
abbrev MsgHandlers := List (Int × MsgHandlerKind)

/-- `Core.__on_message_verb` of `channel.py` combined with the registered
closure's behaviour.  Takes the registry and the incoming verb's `messageref`;
returns the new registry and the number of handler invocations performed
(0 when the lookup misses — the verb is logged and discarded; 1 otherwise).
For a request handler the closure ends with `discard_messageref`
(`dict.pop`), removing the entry; a subscription handler leaves it. -/
def on_message_verb (handlers : MsgHandlers) (messageref : Option Int) :
    MsgHandlers × Nat :=
  match messageref with
  | none => (handlers, 0)
  | some r =>
    match handlers.lookup r with
    | none => (handlers, 0)
    | some .request => (handlers.eraseP (fun e => e.1 == r), 1)
    | some .subscription => (handlers, 1)

/-! The cool-down schedule of `src/nervix/protocols/nxtcp/connection.py`. -/

/-- `self.cooldown_timeouts` of `NxtcpConnection.__init__`. -/
def cooldown_timeouts : List Rat := [5, 5, 5, 10, 10, 20, 30, 60]

/-- The cool-down step of `NxtcpConnection.do_failed`: pick
`cooldown_timeouts[i]` and advance the pointer by one unless it is already at
the last element.  Returns the armed cool-down wait and the new pointer. -/
def do_failed_cooldown (i : Nat) : Rat × Nat :=
  (cooldown_timeouts.getD i 0,
   if i < cooldown_timeouts.length - 1 then i + 1 else i)

/-- `NxtcpConnection.__on_connect` on OS-level connect success resets
`cooldown_timeout_i` to zero. -/
def on_connect_success_cooldown_i : Nat := 0

/-- The wait armed on the `n`-th entry into `Failed` (0-based), starting from
pointer `i`, with the pointer evolving as in `do_failed_cooldown`. -/
def nthCooldownWait (i : Nat) : Nat → Rat
  | 0 => (do_failed_cooldown i).1
  | n + 1 => nthCooldownWait (do_failed_cooldown i).2 n

/-! The NXTCP wire codec (`src/nervix/protocols/nxtcp/encoder.py`,
`decoder.py`, `src/nervix/util/encoder.py`, `decoder.py`).

The packet-type constants come from `from .defines import *`; `defines.py`
itself is not under `src/`, but the constants appear verbatim in
`src/tests/nxtcp_packet_definition.py` (and in spec §4.1, identically). -/

def PACKET_LOGIN : Nat := 0x01
def PACKET_LOGOUT : Nat := 0x03
def PACKET_REQUEST : Nat := 0x04
def PACKET_POST : Nat := 0x06
def PACKET_SUBSCRIBE : Nat := 0x08
def PACKET_UNSUBSCRIBE : Nat := 0x10
def PACKET_PONG : Nat := 0x81
def PACKET_QUIT : Nat := 0x84
def PACKET_SESSION : Nat := 0x02
def PACKET_CALL : Nat := 0x05
def PACKET_MESSAGE : Nat := 0x07
def PACKET_INTEREST : Nat := 0x09
def PACKET_PING : Nat := 0x80
def PACKET_WELCOME : Nat := 0x82
def PACKET_BYEBYE : Nat := 0x83

/-- Big-endian 4-byte encoding of `n mod 2^32` (`struct.pack` with format
`>I`; `pack` raises for out-of-range values, so callers are modelled only for
`n < 2^32`, where this agrees with the source). -/
def u32be (n : Nat) : Bytes :=
  [n / 2 ^ 24 % 256, n / 2 ^ 16 % 256, n / 2 ^ 8 % 256, n % 256]

/-- Value of a big-endian byte sequence (`struct.unpack_from` of `>I`/`>B`). -/
def beVal (l : Bytes) : Nat := l.foldl (fun a b => a * 256 + b) 0

/-- Decoding errors of `decoder.py`: `struct.error` from `unpack_from` on a
too-short buffer, `DecodingError` for an oversized string/blob field, and
`DecodingError` for an unknown packet type. -/
inductive DecErr where
  | structError
  | decodingError
  | unknownPacketType (t : Nat)
  deriving DecidableEq, Repr

/-- `BasePacket.get_uint8` of `decoder.py` (`unpack_from` raises when fewer
than one byte is available at `offset`). -/
def get_uint8 (frame : Bytes) (offset : Nat) : Except DecErr Nat :=
  if offset + 1 ≤ frame.length then .ok (frame.getD offset 0) else .error .structError

/-- `BasePacket.get_uint32` of `decoder.py`. -/
def get_uint32 (frame : Bytes) (offset : Nat) : Except DecErr Nat :=
  if offset + 4 ≤ frame.length then .ok (beVal ((frame.drop offset).take 4))
  else .error .structError

/-- `BasePacket.get_string` of `decoder.py`: `uint8` length prefix, then the
bytes; `DecodingError` when the declared length exceeds the frame.  Returns
the value and the updated `nextbyte`. -/
def get_string (frame : Bytes) (offset : Nat) : Except DecErr (Bytes × Nat) := do
  let len ← get_uint8 frame offset
  if offset + 1 + len > frame.length then throw .decodingError
  return ((frame.drop (offset + 1)).take len, offset + 1 + len)

/-- `BasePacket.get_blob` of `decoder.py`: `uint32` length prefix. -/
def get_blob (frame : Bytes) (offset : Nat) : Except DecErr (Bytes × Nat) := do
  let len ← get_uint32 frame offset
  if offset + 4 + len > frame.length then throw .decodingError
  return ((frame.drop (offset + 4)).take len, offset + 4 + len)

/-- The downstream (server→client) packet variants of `decoder.py`, with the
fields each packet class stores. -/
inductive DownPacket where
  | session (state : Nat) (name : Bytes)
  | call (unidirectional : Bool) (postref : Nat) (name : Bytes) (payload : Bytes)
  | message (status : Nat) (messageref : Nat) (payload : Option Bytes)
  | interest (status : Nat) (postref : Nat) (name : Bytes) (topic : Bytes)
  | ping
  | welcome (server_version protocol_version : Nat)
  | byebye
  deriving DecidableEq, Repr

/-- `SessionPacket.__init__` of `decoder.py`: `state = get_uint8(0)`,
`name = get_string(1)` (the `nextbyte` chaining made explicit). -/
def parseSessionPacket (frame : Bytes) : Except DecErr DownPacket := do
  let state ← get_uint8 frame 0
  let (name, _) ← get_string frame 1
  return .session state name

/-- `CallPacket.__init__` of `decoder.py`: flags, postref, name, payload;
`unidirectional = (flags & 1) > 0`. -/
def parseCallPacket (frame : Bytes) : Except DecErr DownPacket := do
  let flags ← get_uint8 frame 0
  let postref ← get_uint32 frame 1
  let (name, o) ← get_string frame 5
  let (payload, _) ← get_blob frame o
  return .call (decide (0 < flags &&& 1)) postref name payload

/-- `MessagePacket.__init__` of `decoder.py`: status, messageref, then
`payload = None` unless `status == STATUS_OK (= 0)`, in which case a blob is
read at offset 5.  Bytes after the messageref are never touched for a non-OK
status. -/
def parseMessagePacket (frame : Bytes) : Except DecErr DownPacket := do
  let status ← get_uint8 frame 0
  let messageref ← get_uint32 frame 1
  if status = 0 then
    let (payload, _) ← get_blob frame 5
    return .message status messageref (some payload)
  else
    return .message status messageref none

/-- `InterestPacket.__init__` of `decoder.py`: status, postref, name, topic. -/
def parseInterestPacket (frame : Bytes) : Except DecErr DownPacket := do
  let status ← get_uint8 frame 0
  let postref ← get_uint32 frame 1
  let (name, o) ← get_string frame 5
  let (topic, _) ← get_blob frame o
  return .interest status postref name topic

/-- `PingPacket.__init__` of `decoder.py`: reads nothing. -/
def parsePingPacket (_frame : Bytes) : Except DecErr DownPacket := return .ping

/-- `WelcomePacket.__init__` of `decoder.py`: two `uint32`s. -/
def parseWelcomePacket (frame : Bytes) : Except DecErr DownPacket := do
  let sv ← get_uint32 frame 0
  let pv ← get_uint32 frame 4
  return .welcome sv pv

/-- `ByeByePacket.__init__` of `decoder.py`: reads nothing. -/
def parseByeByePacket (_frame : Bytes) : Except DecErr DownPacket := return .byebye

/-- `Decoder.decode` of `decoder.py` on a buffer holding the available bytes:
read the 5-byte header (`uint32` body length, `uint8` type), wait for the full
frame, dispatch on the type via `handler_map` (unknown type raises
`DecodingError`), and run the packet-class constructor on the frame body.
Returns `ok none` when not enough data is buffered. -/
def decoderDecode (buf : Bytes) : Except DecErr (Option DownPacket) :=
  if buf.length < 5 then .ok none
  else
    let length := beVal (buf.take 4)
    let ptype := buf.getD 4 0
    if buf.length < 5 + length then .ok none
    else
      let frame := (buf.drop 5).take length
      if ptype = PACKET_SESSION then do return some (← parseSessionPacket frame)
      else if ptype = PACKET_CALL then do return some (← parseCallPacket frame)
      else if ptype = PACKET_MESSAGE then do return some (← parseMessagePacket frame)
      else if ptype = PACKET_INTEREST then do return some (← parseInterestPacket frame)
      else if ptype = PACKET_PING then do return some (← parsePingPacket frame)
      else if ptype = PACKET_WELCOME then do return some (← parseWelcomePacket frame)
      else if ptype = PACKET_BYEBYE then do return some (← parseByeByePacket frame)
      else .error (.unknownPacketType ptype)

/-! The upstream (client→server) encoder of `encoder.py`.  Each packet class
appends its fields to a chunk that starts as a 5-byte header; `get_chunk`
writes the body length (chunk length minus 5) into the first four bytes.
Equivalently: `u32be body.length ++ [type] ++ body`. -/

/-- `BasePacket.add_string_field` of `encoder.py`: a `uint8` length prefix
(`bytearray.append` accepts only 0..255, so callers are modelled for names of
length ≤ 255) followed by the bytes. -/
def stringF (v : Bytes) : Bytes := [v.length % 256] ++ v

/-- `BasePacket.add_blob_field` of `encoder.py`: `uint32` length prefix. -/
def blobF (v : Bytes) : Bytes := u32be v.length ++ v

/-- `encode_timeout` of `encoder.py`: `None → 0`, otherwise
`int(timeout * 1000)` (truncation; timeouts are validated non-negative, where
truncation is the floor). -/
def encode_timeout (timeout : Option Rat) : Nat :=
  match timeout with
  | none => 0
  | some t => (Int.floor (t * 1000)).toNat

/-- The upstream packet variants of `encoder.py` with their constructor
fields. -/
inductive UpPacket where
  | login (name : Bytes) (enforce standby persist : Bool)
  | logout (name : Bytes)
  | request (name : Bytes) (unidirectional : Bool) (messageref : Option Nat)
      (timeout : Option Rat) (payload : Bytes)
  | post (postref : Nat) (payload : Bytes)
  | subscribe (messageref : Nat) (name : Bytes) (topic : Bytes)
  | unsubscribe (name : Bytes) (topic : Bytes)
  | pong
  | quit
  deriving DecidableEq, Repr

/-- Frame assembly of `BasePacket.get_chunk` (`encoder.py`): 4-byte length of
the body, the type byte, the body. -/
def frameUp (ptype : Nat) (body : Bytes) : Bytes :=
  u32be body.length ++ [ptype % 256] ++ body

/-- `Encoder.encode` of `encoder.py` at the byte level: the framed chunk each
packet class builds.  `LoginPacket`: flags bit0=persist, bit1=standby,
bit2=enforce, then name.  `RequestPacket`: name, flags bit0=unidirectional,
messageref (`0 if unidirectional else messageref`), `encode_timeout`, payload. -/
def encodeUp : UpPacket → Bytes
  | .login name enforce standby persist =>
    frameUp PACKET_LOGIN
      ([(if persist then 1 else 0) + (if standby then 2 else 0) + (if enforce then 4 else 0)]
        ++ stringF name)
  | .logout name => frameUp PACKET_LOGOUT (stringF name)
  | .request name unidirectional messageref timeout payload =>
    frameUp PACKET_REQUEST
      (stringF name ++ [if unidirectional then 1 else 0]
        ++ u32be (if unidirectional then 0 else messageref.getD 0)
        ++ u32be (encode_timeout timeout) ++ blobF payload)
  | .post postref payload => frameUp PACKET_POST (u32be postref ++ blobF payload)
  | .subscribe messageref name topic =>
    frameUp PACKET_SUBSCRIBE (u32be messageref ++ stringF name ++ blobF topic)
  | .unsubscribe name topic => frameUp PACKET_UNSUBSCRIBE (stringF name ++ blobF topic)
  | .pong => frameUp PACKET_PONG []
  | .quit => frameUp PACKET_QUIT []

/-- The canonical downstream wire frames, from the builder functions in
`src/tests/nxtcp_packet_definition.py` (`session`, `call`, `message`,
`interest`, `ping`, `welcome`, `byebye`).  The `message` builder attaches a
payload blob exactly when `status == MESSAGE_STATUS_OK (= 0)`.  The test
`welcome()` fixes both versions to 1; it is generalised here to the
`server_version(u32), protocol_version(u32)` layout of spec §4.1. -/
def buildDown : DownPacket → Bytes
  | .session state name =>
    u32be (2 + name.length) ++ [PACKET_SESSION] ++ [state % 256] ++ stringF name
  | .call uni postref name payload =>
    u32be (10 + name.length + payload.length) ++ [PACKET_CALL]
      ++ [if uni then 1 else 0] ++ u32be postref ++ stringF name ++ blobF payload
  | .message status messageref payload =>
    if status = 0 then
      u32be (9 + (payload.getD []).length) ++ [PACKET_MESSAGE] ++ [status % 256]
        ++ u32be messageref ++ blobF (payload.getD [])
    else
      u32be 5 ++ [PACKET_MESSAGE] ++ [status % 256] ++ u32be messageref
  | .interest status postref name topic =>
    u32be (10 + topic.length + name.length) ++ [PACKET_INTEREST] ++ [status % 256]
      ++ u32be postref ++ stringF name ++ blobF topic
  | .ping => u32be 0 ++ [PACKET_PING]
  | .welcome sv pv => u32be 8 ++ [PACKET_WELCOME] ++ u32be sv ++ u32be pv
  | .byebye => u32be 0 ++ [PACKET_BYEBYE]

/-- Valid field assignments for downstream packets: names fit a `uint8` length
prefix, payload/topic fit the ≤ 32 KiB protocol bound, numeric fields fit
their wire width, and a `MESSAGE` carries a payload iff its status is ok. -/
def ValidDown : DownPacket → Prop
  | .session state name => state < 256 ∧ name.length ≤ 255
  | .call _ postref name payload =>
    postref < 2 ^ 32 ∧ name.length ≤ 255 ∧ payload.length ≤ 2 ^ 15
  | .message status messageref payload =>
    status < 256 ∧ messageref < 2 ^ 32 ∧ (payload.isSome ↔ status = 0) ∧
      (∀ p, payload = some p → p.length ≤ 2 ^ 15)
  | .interest status postref name topic =>
    status < 256 ∧ postref < 2 ^ 32 ∧ name.length ≤ 255 ∧ topic.length ≤ 2 ^ 15
  | .ping => True
  | .welcome sv pv => sv < 2 ^ 32 ∧ pv < 2 ^ 32
  | .byebye => True

/-! The address parser of `src/nervix/protocols/base.py`. -/

/-- Python whitespace stripped by `int(str)`: space, tab, LF, VT, FF, CR
(ASCII fragment of the full rule, which suffices here). -/
def isPyWs (c : Char) : Bool := [9, 10, 11, 12, 13, 32].contains c.toNat

/-- Strip leading and trailing whitespace, as `int(str)` does. -/
def stripStr (s : List Char) : List Char :=
  ((s.dropWhile isPyWs).reverse.dropWhile isPyWs).reverse

/-- Decimal digit value. -/
def digitVal (c : Char) : Nat := c.toNat - 48

/-- Digit run of a python integer literal after the first digit: decimal
digits with single underscores allowed between digits. -/
def pyIntDigitsCore : Nat → List Char → Option Nat
  | acc, [] => some acc
  | acc, [c] => if c.isDigit then some (acc * 10 + digitVal c) else none
  | acc, c :: d :: cs =>
    if c.isDigit then pyIntDigitsCore (acc * 10 + digitVal c) (d :: cs)
    else if c = '_' then
      if d.isDigit then pyIntDigitsCore (acc * 10 + digitVal d) cs else none
    else none

/-- Digit run of a python integer literal: nonempty, starting with a digit. -/
def pyIntDigits (l : List Char) : Option Nat :=
  match l with
  | [] => none
  | c :: cs => if c.isDigit then pyIntDigitsCore (digitVal c) cs else none

/-- `int(str)` of python on the port string: strip whitespace, optional sign,
decimal digits (underscores between digits allowed); anything else raises
`ValueError` (`none` here). -/
def pyInt (s : List Char) : Option Int :=
  match stripStr s with
  | [] => none
  | c :: rest =>
    if c = '+' then (pyIntDigits rest).map (fun n => Int.ofNat n)
    else if c = '-' then (pyIntDigits rest).map (fun n => -(Int.ofNat n))
    else (pyIntDigits (c :: rest)).map (fun n => Int.ofNat n)

/-- `host_port_parser` of `src/nervix/protocols/base.py`: find the FIRST
colon (`str.find`), error when there is none; the host is everything before
it (possibly empty — there is no emptiness check); the port is `int()` of
everything after it, with a parse failure re-raised as `ValueError`. -/
def hostPortParser (s : List Char) : Except String (List Char × Int) :=
  match s.findIdx? (fun c => c == ':') with
  | none => .error "No collon found in address"
  | some i =>
    match pyInt (s.drop (i + 1)) with
    | none => .error "Invalid address"
    | some p => .ok (s.take i, p)

/-- Decimal value of a digit string, as computed by python `int` on a plain
digit run. -/
def decimalVal (digits : List Char) : Nat :=
  digits.foldl (fun a c => a * 10 + digitVal c) 0

/-- The ten ASCII digit characters. -/
def digitChars : List Char := ['0', '1', '2', '3', '4', '5', '6', '7', '8', '9']

/-! Helper lemmas about the ready-transition drain. -/

/-- The `appendleft` loop over `reversed(upstream_auto_resend)` prepends the
auto-resend verbs, in list order, to the left end of the deque. -/
theorem foldl_consPair (l : List Verb) (b : List (Verb × Option Rat)) :
    l.reverse.foldl (fun d v => ((v, (none : Option Rat)) :: d)) b
      = l.map (fun v => (v, (none : Option Rat))) ++ b := by
  induction l generalizing b with
  | nil => rfl
  | cons x xs ih =>
    simp [List.foldl_append, ih]

/-- Membership in the drained send list: a verb is sent iff some deque entry
carries it with an expiry that is not skipped. -/
theorem mem_drainOrder (now : Rat) (v : Verb) (l : List (Verb × Option Rat)) :
    v ∈ drainOrder now l ↔ ∃ exp, (v, exp) ∈ l ∧ expiredSkip now exp = false := by
  induction l with
  | nil => simp [drainOrder]
  | cons e rest ih =>
    obtain ⟨w, exp⟩ := e
    by_cases hskip : expiredSkip now exp = true
    · rw [drainOrder, if_pos hskip, ih]
      constructor
      · rintro ⟨x, hx, hs⟩
        exact ⟨x, List.mem_cons_of_mem _ hx, hs⟩
      · rintro ⟨x, hx, hs⟩
        rcases List.mem_cons.mp hx with h | h
        · cases h
          rw [hskip] at hs
          cases hs
        · exact ⟨x, h, hs⟩
    · rw [Bool.not_eq_true] at hskip
      rw [drainOrder, if_neg (by rw [hskip]; exact Bool.false_ne_true)]
      constructor
      · intro hv
        rcases List.mem_cons.mp hv with rfl | hmem
        · exact ⟨exp, List.mem_cons_self _ _, hskip⟩
        · obtain ⟨x, hx, hs⟩ := ih.mp hmem
          exact ⟨x, List.mem_cons_of_mem _ hx, hs⟩
      · rintro ⟨x, hx, hs⟩
        rcases List.mem_cons.mp hx with h | h
        · cases h
          exact List.mem_cons_self _ _
        · exact List.mem_cons_of_mem _ (ih.mpr ⟨x, h, hs⟩)

/-- C1: claimed delivery order on a ready transition — auto-resend verbs first,
in list order, then the backlog FIFO.  The code instead `appendleft`s the
auto-resend verbs while the drain loop `pop`s from the opposite end, so with
auto-resend list `[a1, a2]` and a backlog holding `b`, the code hands the
connection `[b, a2, a1]`: backlog first and the auto-resend verbs reversed,
not `[a1, a2, b]` as claimed. -/
theorem ready_drain_order_bug :
    (on_connection_ready
      { connection_ready := false,
        upstream_auto_resend := [.logout [97], .logout [98]],
        upstream_backlog := [(.logout [99], some 100)] } true 0).2
      = [.logout [99], .logout [98], .logout [97]] ∧
    ([Verb.logout [99], .logout [98], .logout [97]]
      ≠ [Verb.logout [97], .logout [98], .logout [99]]) := by
  constructor
  · decide
  · decide

/-- C2: claimed — `cancel(verb)` returns `True` iff the verb is still in the
backlog, removing it.  In the code the backlog holds `(verb, expires)` tuples
while `cancel` evaluates `verb in self.upstream_backlog`; comparing a verb with
a tuple reaches `BaseVerb.__eq__`, which reads `other.__dict__` — a tuple has
none, so CPython raises `AttributeError` whenever the backlog is non-empty,
and `cancel` can never return `True`.  Concretely: a verb enqueued with
`ttl = 5` while not ready sits in the backlog, and cancelling it raises. -/
theorem cancel_backlog_bug :
    cancel
      { connection_ready := false, upstream_auto_resend := [],
        upstream_backlog := [(.logout [97], some 5)] } (.logout [97])
      = .error .attributeError := by
  decide

/-- C10: with a ready connection, `put_upstream` hands the verb straight to
`connection.send_verb`; the backlog is untouched whatever the `ttl`, and the
verb is appended to the auto-resend list exactly when `auto_resend` is set. -/
theorem put_upstream_ready_immediate (s : CoreState) (v : Verb) (ttl : Option Rat)
    (ar : Bool) (now : Rat) (hready : s.connection_ready = true)
    (hv : v.validate = .ok ()) :
    put_upstream s v ttl ar now =
      .ok ({ s with upstream_auto_resend :=
        s.upstream_auto_resend ++ (if ar then [v] else []) }, [v]) := by
  unfold put_upstream
  rw [hv]
  cases ar <;> cases s <;> simp_all

/-- Witness for C10 at a concrete ready state. -/
theorem put_upstream_ready_immediate_witness :
    put_upstream
      { connection_ready := true, upstream_auto_resend := [], upstream_backlog := [] }
      (.logout [97]) (some 5) true 0 =
      .ok ({ connection_ready := true, upstream_auto_resend := [.logout [97]],
             upstream_backlog := [] }, [.logout [97]]) := by
  have h := put_upstream_ready_immediate
    { connection_ready := true, upstream_auto_resend := [], upstream_backlog := [] }
    (.logout [97]) (some 5) true 0 rfl (by decide)
  simpa using h

/-- C4 counterexample: the claim quantifies over EVERY `put_upstream` call made
while not ready with `ttl > 0` and asserts the verb is never sent once the
clock passes `enqueue_time + ttl`.  A verb enqueued with `auto_resend=True`
(e.g. a login or subscribe) violates this: its backlog entry expires and is
skipped, but the auto-resend list re-delivers it on the ready transition.
Here: enqueue at time 0 with `ttl = 5`, become ready at time 10 > 0 + 5, and
the verb is still handed to the connection. -/
theorem backlog_ttl_counterexample :
    put_upstream .init (.logout [97]) (some 5) true 0
      = .ok ({ connection_ready := false, upstream_auto_resend := [.logout [97]],
               upstream_backlog := [(.logout [97], some 5)] }, []) ∧
    ((0 : Rat) + 5 < 10) ∧
    (on_connection_ready
      { connection_ready := false, upstream_auto_resend := [.logout [97]],
        upstream_backlog := [(.logout [97], some 5)] } true 10).2 = [.logout [97]] := by
  refine ⟨?_, by norm_num, ?_⟩
  · norm_num [put_upstream, Verb.validate, validate_name, isNameByte, CoreState.init]
  · norm_num [on_connection_ready, drainOrder, expiredSkip]

/-- C4 (amended to calls with `auto_resend=False`): a verb enqueued while not
ready with `ttl > 0` is kept in the backlog with deadline `now + ttl`; on a
ready transition at `readyAt` it is handed to the connection iff
`readyAt ≤ now + ttl`, otherwise it is dropped and never sent.  A verb
enqueued while not ready with no ttl is discarded immediately (state
unchanged, nothing sent).  Auto-resend verbs are exempt: they are re-delivered
from the auto-resend list regardless of any deadline (see the counterexample). -/
theorem backlog_ttl_delivery :
    (∀ (s : CoreState) (v : Verb) (t now readyAt : Rat),
      s.connection_ready = false →
      v.validate = .ok () →
      0 < t → 0 ≤ now →
      v ∉ s.upstream_auto_resend →
      (∀ e ∈ s.upstream_backlog, e.1 ≠ v) →
      put_upstream s v (some t) false now
        = .ok ({ s with upstream_backlog := (v, some (now + t)) :: s.upstream_backlog }, []) ∧
      (readyAt ≤ now + t →
        v ∈ (on_connection_ready
          { s with upstream_backlog := (v, some (now + t)) :: s.upstream_backlog }
          true readyAt).2) ∧
      (now + t < readyAt →
        v ∉ (on_connection_ready
          { s with upstream_backlog := (v, some (now + t)) :: s.upstream_backlog }
          true readyAt).2)) ∧
    (∀ (s : CoreState) (v : Verb) (now : Rat),
      s.connection_ready = false → v.validate = .ok () →
      put_upstream s v none false now = .ok (s, [])) := by
  constructor
  · intro s v t now readyAt hnr hv ht hnow hauto hback
    have hexp : (0 : Rat) < now + t := by linarith
    refine ⟨?_, ?_, ?_⟩
    · unfold put_upstream
      rw [hv]
      simp [hnr, ht]
    · intro hready
      rw [on_connection_ready, if_pos rfl]
      simp only
      rw [mem_drainOrder]
      refine ⟨some (now + t), ?_, ?_⟩
      · rw [List.mem_reverse, foldl_consPair]
        exact List.mem_append_right _ (List.mem_cons_self _ _)
      · simp only [expiredSkip, decide_eq_false_iff_not, not_and, not_lt]
        intro _
        exact hready
    · intro hlate hmem
      rw [on_connection_ready, if_pos rfl] at hmem
      simp only at hmem
      rw [mem_drainOrder] at hmem
      obtain ⟨exp, hin, hskip⟩ := hmem
      rw [List.mem_reverse, foldl_consPair] at hin
      rcases List.mem_append.mp hin with h | h
      · obtain ⟨w, hw, hweq⟩ := List.mem_map.mp h
        cases hweq
        exact hauto hw
      · rcases List.mem_cons.mp h with h | h
        · have hexpeq : exp = some (now + t) := by
            have := congrArg Prod.snd h
            simpa using this
          subst hexpeq
          simp only [expiredSkip, decide_eq_false_iff_not, not_and, not_lt] at hskip
          have := hskip (by linarith)
          linarith
        · exact hback _ h rfl
  · intro s v now hnr hv
    unfold put_upstream
    rw [hv]
    simp [hnr]

/-- C4 witness at concrete inputs: enqueue at time 0 with `ttl = 5` on a fresh
core; ready at time 3 delivers the verb, ready at time 6 does not; an enqueue
with no ttl leaves the state unchanged. -/
theorem backlog_ttl_delivery_witness :
    Verb.logout [97] ∈ (on_connection_ready
      { connection_ready := false, upstream_auto_resend := [],
        upstream_backlog := [(.logout [97], some ((0 : Rat) + 5))] } true 3).2 ∧
    Verb.logout [97] ∉ (on_connection_ready
      { connection_ready := false, upstream_auto_resend := [],
        upstream_backlog := [(.logout [97], some ((0 : Rat) + 5))] } true 6).2 ∧
    put_upstream .init (.logout [97]) none false 0 = .ok (.init, []) := by
  refine ⟨?_, ?_, backlog_ttl_delivery.2 .init (.logout [97]) 0 rfl (by decide)⟩
  · exact (backlog_ttl_delivery.1 .init (.logout [97]) 5 0 3 rfl (by decide)
      (by norm_num) (by norm_num) (by simp [CoreState.init])
      (by simp [CoreState.init])).2.1 (by norm_num)
  · exact (backlog_ttl_delivery.1 .init (.logout [97]) 5 0 6 rfl (by decide)
      (by norm_num) (by norm_num) (by simp [CoreState.init])
      (by simp [CoreState.init])).2.2 (by norm_num)

/-- C8: an invalid verb makes `put_upstream` raise the `ValueError` from
`validate()` before any mutation: the call returns the error and neither the
auto-resend list nor the backlog is touched and nothing is handed to the
connection.  The listed example inputs are indeed rejected by the validators:
empty and 256-byte names, a name with a character outside `0-9A-Za-z-_`, a
payload of `2^15 + 1` bytes, and a non-positive reference number. -/
theorem put_upstream_rejects_invalid :
    (∀ (s : CoreState) (v : Verb) (ttl : Option Rat) (ar : Bool) (now : Rat)
      (m : String), v.validate = .error m →
      put_upstream s v ttl ar now = .error (.valueError m)) ∧
    validate_name [] ≠ .ok () ∧
    validate_name (List.replicate 256 97) ≠ .ok () ∧
    validate_name [32] ≠ .ok () ∧
    validate_payload (some (List.replicate (2 ^ 15 + 1) 0)) ≠ .ok () ∧
    validate_refnr (some 0) ≠ .ok () ∧
    validate_refnr (some (-1)) ≠ .ok () := by
  refine ⟨?_, by decide, ?_, by decide, ?_, by decide, by decide⟩
  · intro s v ttl ar now m hm
    unfold put_upstream
    rw [hm]
  · simp only [validate_name, List.length_replicate]
    norm_num
    decide
  · simp only [validate_payload, List.length_replicate]
    norm_num
    decide

/-- C8 witness: a logout verb with an empty name is rejected with the
validator's message and no state change is possible. -/
theorem put_upstream_rejects_invalid_witness :
    put_upstream .init (.logout []) (some 5) true 0
      = .error (.valueError "Name is shorter than minimium length of 1 character") := by
  exact put_upstream_rejects_invalid.1 .init (.logout []) (some 5) true 0 _ (by decide)

/-! Helper lemmas about the messageref registry (a python dict: association
list with unique keys). -/

theorem lookup_none_of_not_mem (l : MsgHandlers) (r : Int)
    (h : r ∉ l.map Prod.fst) : l.lookup r = none := by
  induction l with
  | nil => rfl
  | cons a t ih =>
    obtain ⟨k, v⟩ := a
    simp only [List.map_cons, List.mem_cons] at h
    push_neg at h
    have hbeq : (r == k) = false := by simpa using h.1
    simp [List.lookup, hbeq, ih h.2]

theorem lookup_eraseP_self (l : MsgHandlers) (r : Int) (k : MsgHandlerKind)
    (hl : l.lookup r = some k) (hnd : (l.map Prod.fst).Nodup) :
    (l.eraseP (fun e => e.1 == r)).lookup r = none := by
  induction l with
  | nil => cases hl
  | cons a t ih =>
    obtain ⟨k1, v1⟩ := a
    simp only [List.map_cons, List.nodup_cons] at hnd
    by_cases hk : k1 = r
    · subst hk
      rw [List.eraseP_cons_of_pos (by simp)]
      exact lookup_none_of_not_mem t k1 hnd.1
    · rw [List.eraseP_cons_of_neg (by simpa using hk)]
      have hne : (r == k1) = false := by simp [Ne.symm hk]
      have hl' : t.lookup r = some k := by
        simpa [List.lookup, hne] using hl
      simp [List.lookup, hne, ih hl' hnd.2]

/-- C3 counterexample: for a messageref allocated by a SUBSCRIPTION, the entry
is not removed when a `MESSAGE` arrives — `Subscription.__on_message`
(`channel.py`) never calls `discard_messageref` — so a second `MESSAGE` with
the same ref invokes the handler again instead of being logged and dropped. -/
theorem message_once_counterexample :
    on_message_verb [(1, .subscription)] (some 1) = ([(1, .subscription)], 1) ∧
    (on_message_verb [(1, .subscription)] (some 1)).1.lookup 1
      = some .subscription ∧
    (on_message_verb ((on_message_verb [(1, .subscription)] (some 1)).1)
      (some 1)).2 = 1 := by
  refine ⟨by decide, by decide, by decide⟩

/-- C3 (amended): the exactly-once contract holds for messagerefs registered
by a REQUEST — one invocation, the entry removed in the same step, and a
subsequent `MESSAGE` with the same ref is discarded without invoking anything.
For refs registered by a subscription the handler stays registered and fires
on every `MESSAGE` with that ref; unknown refs are logged and discarded. -/
theorem message_handler_dispatch :
    (∀ (handlers : MsgHandlers) (r : Int), (handlers.map Prod.fst).Nodup →
      handlers.lookup r = some .request →
      (on_message_verb handlers (some r)).2 = 1 ∧
      (on_message_verb handlers (some r)).1.lookup r = none ∧
      on_message_verb (on_message_verb handlers (some r)).1 (some r)
        = ((on_message_verb handlers (some r)).1, 0)) ∧
    (∀ (handlers : MsgHandlers) (r : Int),
      handlers.lookup r = some .subscription →
      on_message_verb handlers (some r) = (handlers, 1)) ∧
    (∀ (handlers : MsgHandlers) (r : Int),
      handlers.lookup r = none → on_message_verb handlers (some r) = (handlers, 0)) := by
  refine ⟨?_, ?_, ?_⟩
  · intro handlers r hnd hl
    have h1 : on_message_verb handlers (some r)
        = (handlers.eraseP (fun e => e.1 == r), 1) := by
      simp [on_message_verb, hl]
    have h2 : (handlers.eraseP (fun e => e.1 == r)).lookup r = none :=
      lookup_eraseP_self handlers r _ hl hnd
    refine ⟨by rw [h1], by rw [h1]; exact h2, ?_⟩
    rw [h1]
    simp [on_message_verb, h2]
  · intro handlers r hl
    simp [on_message_verb, hl]
  · intro handlers r hl
    simp [on_message_verb, hl]

/-- C3 witness: a request-registered ref is delivered once and released; a
subscription-registered ref stays registered. -/
theorem message_handler_dispatch_witness :
    ((on_message_verb [(1, MsgHandlerKind.request)] (some 1)).2 = 1 ∧
     (on_message_verb [(1, MsgHandlerKind.request)] (some 1)).1.lookup 1 = none ∧
     on_message_verb (on_message_verb [(1, MsgHandlerKind.request)] (some 1)).1 (some 1)
       = ((on_message_verb [(1, MsgHandlerKind.request)] (some 1)).1, 0)) ∧
    on_message_verb [(2, MsgHandlerKind.subscription)] (some 2)
      = ([(2, MsgHandlerKind.subscription)], 1) ∧
    on_message_verb [(2, MsgHandlerKind.subscription)] (some 1)
      = ([(2, MsgHandlerKind.subscription)], 0) := by
  refine ⟨message_handler_dispatch.1 [(1, .request)] 1 (by decide) (by decide),
    message_handler_dispatch.2.1 [(2, .subscription)] 2 (by decide),
    message_handler_dispatch.2.2 [(2, .subscription)] 1 (by decide)⟩

/-! Helper lemmas about the cool-down schedule. -/

theorem do_failed_cooldown_snd (i : Nat) (hi : i ≤ 7) :
    (do_failed_cooldown i).2 = min (i + 1) 7 := by
  simp only [do_failed_cooldown, cooldown_timeouts, List.length_cons, List.length_nil]
  split <;> omega

theorem nthCooldownWait_min (k : Nat) : ∀ i : Nat, i ≤ 7 →
    nthCooldownWait i k = cooldown_timeouts.getD (min (i + k) 7) 0 := by
  induction k with
  | zero =>
    intro i hi
    have : min (i + 0) 7 = i := by omega
    rw [this, nthCooldownWait, do_failed_cooldown]
  | succ k ih =>
    intro i hi
    rw [nthCooldownWait, ih _ (by rw [do_failed_cooldown_snd i hi]; omega)]
    congr 1
    rw [do_failed_cooldown_snd i hi]
    omega

/-- C5: driving the cool-down from a reset pointer yields waits
5, 5, 5, 10, 10, 20, 30, 60 and then 60 forever (`getD n 60` is the `n`-th
list element for `n < 8` and 60 beyond); each entry into `Failed` advances the
pointer by one, saturating at the last slot; and an OS-level connect success
resets the pointer to 0, so the first failure afterwards waits 5 s again. -/
theorem cooldown_schedule :
    (∀ n, nthCooldownWait 0 n = cooldown_timeouts.getD n 60) ∧
    (∀ i, i ≤ 7 → (do_failed_cooldown i).2 = min (i + 1) 7) ∧
    nthCooldownWait on_connect_success_cooldown_i 0 = 5 := by
  refine ⟨?_, do_failed_cooldown_snd, by decide⟩
  intro n
  rw [nthCooldownWait_min n 0 (by omega)]
  by_cases h : n ≤ 7
  · have : min (0 + n) 7 = n := by omega
    rw [this]
    interval_cases n <;> rfl
  · have h7 : min (0 + n) 7 = 7 := by omega
    have hr : cooldown_timeouts.getD n 60 = 60 :=
      List.getD_eq_default _ _ (by simp [cooldown_timeouts]; omega)
    rw [h7, hr]
    rfl

/-- C5 witness: the pointer step saturates concretely — from 6 it advances to
7, from 7 it stays at 7. -/
theorem cooldown_schedule_witness :
    (do_failed_cooldown 6).2 = min (6 + 1) 7 ∧ (do_failed_cooldown 7).2 = min (7 + 1) 7 := by
  exact ⟨cooldown_schedule.2.1 6 (by omega), cooldown_schedule.2.1 7 (by omega)⟩


theorem length_u32be (n : Nat) : (u32be n).length = 4 := rfl

theorem beVal_u32be (n : Nat) (h : n < 2 ^ 32) : beVal (u32be n) = n := by
  simp [u32be, beVal]
  omega

theorem drop_append_len (l1 l2 : Bytes) (k : Nat) (h : l1.length = k) :
    (l1 ++ l2).drop k = l2 := List.drop_left' h

theorem take_append_len (l1 l2 : Bytes) (k : Nat) (h : l1.length = k) :
    (l1 ++ l2).take k = l1 := List.take_left' h

theorem getD_append_len (l1 l2 : Bytes) (k : Nat) (d : Nat) (h : l1.length = k) :
    (l1 ++ l2).getD k d = l2.getD 0 d := by
  rw [List.getD_append_right]
  · rw [h, Nat.sub_self]
  · omega

theorem decoderDecode_append (t : Nat) (body : Bytes) (hn : body.length < 2 ^ 32) :
    decoderDecode (u32be body.length ++ [t] ++ body) =
      (if t = PACKET_SESSION then do return some (← parseSessionPacket body)
       else if t = PACKET_CALL then do return some (← parseCallPacket body)
       else if t = PACKET_MESSAGE then do return some (← parseMessagePacket body)
       else if t = PACKET_INTEREST then do return some (← parseInterestPacket body)
       else if t = PACKET_PING then do return some (← parsePingPacket body)
       else if t = PACKET_WELCOME then do return some (← parseWelcomePacket body)
       else if t = PACKET_BYEBYE then do return some (← parseByeByePacket body)
       else .error (.unknownPacketType t)) := by
  have hlen : (u32be body.length ++ [t] ++ body).length = 5 + body.length := by
    simp [u32be]
    omega
  have htake : (u32be body.length ++ [t] ++ body).take 4 = u32be body.length := by
    rw [List.append_assoc]
    exact take_append_len _ _ _ (length_u32be _)
  have hgetD : (u32be body.length ++ [t] ++ body).getD 4 0 = t := by
    rw [List.append_assoc, getD_append_len _ _ _ _ (length_u32be _)]
    rfl
  have hdrop : (u32be body.length ++ [t] ++ body).drop 5 = body := by
    exact drop_append_len _ _ _ (by simp [u32be])
  unfold decoderDecode
  rw [hlen, if_neg (by omega), htake, beVal_u32be _ hn, hgetD, hdrop,
    if_neg (by omega), List.take_length]

theorem parseSession_build (state : Nat) (name : Bytes)
    (hs : state < 256) (hn : name.length ≤ 255) :
    parseSessionPacket ([state % 256] ++ stringF name) = .ok (.session state name) := by
  have hmod : state % 256 = state := Nat.mod_eq_of_lt hs
  have hmodn : name.length % 256 = name.length := Nat.mod_eq_of_lt (by omega)
  simp [parseSessionPacket, get_uint8, get_string, stringF, hmod, hmodn,
    Bind.bind, Except.bind, Functor.map, Except.map, Pure.pure, Except.pure,
    show ¬ (name.length + 1 + 1 < 2 + name.length) by omega,
    List.take_length]



theorem get_uint8_at (X : Bytes) (b : Nat) (Y : Bytes) (k : Nat) (hX : X.length = k) :
    get_uint8 (X ++ (b :: Y)) k = .ok b := by
  rw [get_uint8, if_pos (by simp [hX])]
  congr 1
  rw [getD_append_len _ _ _ _ hX]
  rfl

theorem get_uint32_at (X : Bytes) (pr : Nat) (Y : Bytes) (k : Nat)
    (hX : X.length = k) (hpr : pr < 2 ^ 32) :
    get_uint32 (X ++ (u32be pr ++ Y)) k = .ok pr := by
  rw [get_uint32, if_pos (by simp [hX, u32be])]
  rw [drop_append_len _ _ _ hX, take_append_len _ _ _ (length_u32be _),
    beVal_u32be _ hpr]

theorem drop_cons_at (X : Bytes) (b : Nat) (Y : Bytes) (k : Nat) (hX : X.length = k) :
    (X ++ (b :: Y)).drop (k + 1) = Y := by
  have h : X ++ (b :: Y) = (X ++ [b]) ++ Y := by simp
  rw [h, drop_append_len _ _ _ (by simp [hX])]

theorem get_string_at (X name Y : Bytes) (k : Nat)
    (hX : X.length = k) (hn : name.length ≤ 255) :
    get_string (X ++ (stringF name ++ Y)) k = .ok (name, k + 1 + name.length) := by
  have hmod : name.length % 256 = name.length := Nat.mod_eq_of_lt (by omega)
  have hform : stringF name ++ Y = name.length :: (name ++ Y) := by
    simp [stringF, hmod]
  rw [hform]
  rw [get_string]
  rw [get_uint8_at X _ _ k hX]
  have hlen : (X ++ (name.length :: (name ++ Y))).length
      = k + 1 + name.length + Y.length := by
    simp [hX]
    omega
  simp only [Bind.bind, Except.bind]
  rw [if_neg (by rw [hlen]; omega)]
  rw [drop_cons_at X _ _ k hX, take_append_len _ _ _ rfl]
  rfl

theorem get_blob_at (X payload Y : Bytes) (k : Nat)
    (hX : X.length = k) (hp : payload.length < 2 ^ 32) :
    get_blob (X ++ (blobF payload ++ Y)) k = .ok (payload, k + 4 + payload.length) := by
  have hform : blobF payload ++ Y = u32be payload.length ++ (payload ++ Y) := by
    simp [blobF]
  rw [hform]
  rw [get_blob]
  rw [get_uint32_at X _ _ k hX hp]
  have hlen : (X ++ (u32be payload.length ++ (payload ++ Y))).length
      = k + 4 + payload.length + Y.length := by
    simp [hX, u32be]
    omega
  simp only [Bind.bind, Except.bind]
  rw [if_neg (by rw [hlen]; omega)]
  have hdr : (X ++ (u32be payload.length ++ (payload ++ Y))).drop (k + 4) = payload ++ Y := by
    have h : X ++ (u32be payload.length ++ (payload ++ Y))
        = (X ++ u32be payload.length) ++ (payload ++ Y) := by simp
    rw [h, drop_append_len _ _ _ (by simp [hX, u32be])]
  rw [hdr, take_append_len _ _ _ rfl]
  rfl



theorem get_blob_at_end (X payload : Bytes) (k : Nat)
    (hX : X.length = k) (hp : payload.length < 2 ^ 32) :
    get_blob (X ++ blobF payload) k = .ok (payload, k + 4 + payload.length) := by
  have h := get_blob_at X payload [] k hX hp
  rwa [List.append_nil] at h

theorem parseCall_build (f postref : Nat) (name payload : Bytes)
    (hpr : postref < 2 ^ 32) (hn : name.length ≤ 255) (hp : payload.length < 2 ^ 32) :
    parseCallPacket (f :: (u32be postref ++ (stringF name ++ blobF payload)))
      = .ok (.call (decide (0 < f &&& 1)) postref name payload) := by
  have h8 : get_uint8 (f :: (u32be postref ++ (stringF name ++ blobF payload))) 0
      = .ok f := get_uint8_at [] f _ 0 rfl
  have h32 : get_uint32 (f :: (u32be postref ++ (stringF name ++ blobF payload))) 1
      = .ok postref := get_uint32_at [f] postref _ 1 rfl hpr
  have hstr : get_string (f :: (u32be postref ++ (stringF name ++ blobF payload))) 5
      = .ok (name, 5 + 1 + name.length) :=
    get_string_at ([f] ++ u32be postref) name (blobF payload) 5 (by simp [u32be]) hn
  have hblob : get_blob (f :: (u32be postref ++ (stringF name ++ blobF payload)))
      (5 + 1 + name.length)
      = .ok (payload, 5 + 1 + name.length + 4 + payload.length) :=
    get_blob_at_end ([f] ++ (u32be postref ++ stringF name)) payload _
      (by simp [u32be, stringF]; omega) hp
  rw [parseCallPacket, h8]
  simp only [Bind.bind, Except.bind]
  rw [h32]
  simp only
  rw [hstr]
  simp only
  rw [hblob]
  rfl

theorem parseMessage_build_nonok (status ref : Nat) (rest : Bytes)
    (hs : status ≠ 0) (hr : ref < 2 ^ 32) :
    parseMessagePacket (status :: (u32be ref ++ rest)) = .ok (.message status ref none) := by
  have h8 : get_uint8 (status :: (u32be ref ++ rest)) 0 = .ok status :=
    get_uint8_at [] status _ 0 rfl
  have h32 : get_uint32 (status :: (u32be ref ++ rest)) 1 = .ok ref :=
    get_uint32_at [status] ref _ 1 rfl hr
  rw [parseMessagePacket, h8]
  simp only [Bind.bind, Except.bind]
  rw [h32]
  simp only
  rw [if_neg hs]
  rfl

theorem parseMessage_build_ok (ref : Nat) (payload : Bytes)
    (hr : ref < 2 ^ 32) (hp : payload.length < 2 ^ 32) :
    parseMessagePacket (0 :: (u32be ref ++ blobF payload))
      = .ok (.message 0 ref (some payload)) := by
  have h8 : get_uint8 (0 :: (u32be ref ++ blobF payload)) 0 = .ok 0 :=
    get_uint8_at [] 0 _ 0 rfl
  have h32 : get_uint32 (0 :: (u32be ref ++ blobF payload)) 1 = .ok ref :=
    get_uint32_at [0] ref _ 1 rfl hr
  have hblob : get_blob (0 :: (u32be ref ++ blobF payload)) 5
      = .ok (payload, 5 + 4 + payload.length) :=
    get_blob_at_end ([0] ++ u32be ref) payload 5 (by simp [u32be]) hp
  rw [parseMessagePacket, h8]
  simp only [Bind.bind, Except.bind]
  rw [h32]
  simp only [if_true]
  rw [hblob]
  rfl

theorem parseInterest_build (status postref : Nat) (name topic : Bytes)
    (hpr : postref < 2 ^ 32) (hn : name.length ≤ 255) (ht : topic.length < 2 ^ 32) :
    parseInterestPacket (status :: (u32be postref ++ (stringF name ++ blobF topic)))
      = .ok (.interest status postref name topic) := by
  have h8 : get_uint8 (status :: (u32be postref ++ (stringF name ++ blobF topic))) 0
      = .ok status := get_uint8_at [] status _ 0 rfl
  have h32 : get_uint32 (status :: (u32be postref ++ (stringF name ++ blobF topic))) 1
      = .ok postref := get_uint32_at [status] postref _ 1 rfl hpr
  have hstr : get_string (status :: (u32be postref ++ (stringF name ++ blobF topic))) 5
      = .ok (name, 5 + 1 + name.length) :=
    get_string_at ([status] ++ u32be postref) name (blobF topic) 5 (by simp [u32be]) hn
  have hblob : get_blob (status :: (u32be postref ++ (stringF name ++ blobF topic)))
      (5 + 1 + name.length)
      = .ok (topic, 5 + 1 + name.length + 4 + topic.length) :=
    get_blob_at_end ([status] ++ (u32be postref ++ stringF name)) topic _
      (by simp [u32be, stringF]; omega) ht
  rw [parseInterestPacket, h8]
  simp only [Bind.bind, Except.bind]
  rw [h32]
  simp only
  rw [hstr]
  simp only
  rw [hblob]
  rfl

theorem parseWelcome_build (sv pv : Nat) (hsv : sv < 2 ^ 32) (hpv : pv < 2 ^ 32) :
    parseWelcomePacket (u32be sv ++ u32be pv) = .ok (.welcome sv pv) := by
  have h1 : get_uint32 (u32be sv ++ u32be pv) 0 = .ok sv := by
    have h := get_uint32_at [] sv (u32be pv) 0 rfl hsv
    simpa using h
  have h2 : get_uint32 (u32be sv ++ u32be pv) 4 = .ok pv := by
    have h := get_uint32_at (u32be sv) pv [] 4 rfl hpv
    rwa [List.append_nil] at h
  rw [parseWelcomePacket, h1]
  simp only [Bind.bind, Except.bind]
  rw [h2]
  rfl



theorem parseMessage_result_shape (frame : Bytes) (p : DownPacket)
    (h : parseMessagePacket frame = .ok p) :
    ∃ s r pl, p = .message s r pl ∧ (pl.isSome ↔ s = 0) := by
  rw [parseMessagePacket] at h
  simp only [Bind.bind, Except.bind] at h
  cases h8 : get_uint8 frame 0 with
  | error e => rw [h8] at h; cases h
  | ok s =>
    rw [h8] at h
    simp only at h
    cases h32 : get_uint32 frame 1 with
    | error e => rw [h32] at h; cases h
    | ok r =>
      rw [h32] at h
      simp only at h
      by_cases hs : s = 0
      · rw [if_pos hs] at h
        cases hb : get_blob frame 5 with
        | error e => rw [hb] at h; cases h
        | ok v =>
          rw [hb] at h
          simp only [pure, Except.pure, Except.ok.injEq] at h
          exact ⟨s, r, some v.1, h.symm, by simp [hs]⟩
      · rw [if_neg hs] at h
        simp only [pure, Except.pure, Except.ok.injEq] at h
        exact ⟨s, r, none, h.symm, by simp [hs]⟩



/-- C6 counterexample: the claim asserts `decode(encode(p)) = p` for every
packet variant, with `encode` the client `Encoder.encode` and `decode` the
client `Decoder.decode`.  The two cover disjoint packet sets: the encoder
frames only upstream (client→server) types, none of which appear in the
decoder handler map, so the composition never returns a packet.  Concretely a
`PONG` frame (type 0x81) produced by the encoder makes the decoder raise
`DecodingError` for an unknown packet type, not return the packet. -/
theorem encode_decode_counterexample :
    decoderDecode (encodeUp .pong) = .error (.unknownPacketType 0x81) := by decide

/-- C6 (amended): the round-trip law holds in the only form the client code
admits.  For every downstream packet variant with a valid field assignment,
feeding the canonical downstream wire frame to the client decoder yields the
same packet back; the client encoder and decoder themselves handle disjoint
(upstream vs downstream) packet sets, so `decode(encode(p))` is a cross-peer
law, not one internal to this client (see the counterexample). -/
theorem buildDown_decode_roundtrip (p : DownPacket) (hp : ValidDown p) :
    decoderDecode (buildDown p) = .ok (some p) := by
  cases p with
  | session state name =>
    obtain ⟨hs, hn⟩ := hp
    have hmod : state % 256 = state := Nat.mod_eq_of_lt hs
    have hblen : ([state % 256] ++ stringF name).length = 2 + name.length := by
      simp [stringF]
      omega
    have hframe : buildDown (.session state name)
        = u32be ([state % 256] ++ stringF name).length ++ [PACKET_SESSION]
          ++ ([state % 256] ++ stringF name) := by
      rw [hblen]
      simp [buildDown, List.append_assoc]
    rw [hframe, decoderDecode_append _ _ (by rw [hblen]; omega), if_pos rfl,
      parseSession_build state name hs hn]
    rfl
  | call uni postref name payload =>
    obtain ⟨hpr, hn, hp⟩ := hp
    have hblen : ((if uni then 1 else 0) :: (u32be postref ++ (stringF name ++ blobF payload))).length
        = 10 + name.length + payload.length := by
      simp [stringF, blobF, u32be]
      omega
    have hframe : buildDown (.call uni postref name payload)
        = u32be ((if uni then 1 else 0) :: (u32be postref ++ (stringF name ++ blobF payload))).length
          ++ [PACKET_CALL]
          ++ ((if uni then 1 else 0) :: (u32be postref ++ (stringF name ++ blobF payload))) := by
      rw [hblen]
      simp [buildDown, List.append_assoc]
    have hflag : decide (0 < (if uni then 1 else 0) &&& 1) = uni := by
      cases uni <;> decide
    rw [hframe, decoderDecode_append _ _ (by rw [hblen]; omega),
      if_neg (by decide), if_pos rfl,
      parseCall_build _ postref name payload hpr hn (by omega), hflag]
    rfl
  | message status ref payload =>
    obtain ⟨hs, hr, hiff, hlen⟩ := hp
    cases payload with
    | none =>
      have hst : status ≠ 0 := by
        intro h0
        rw [← hiff] at h0
        cases h0
      have hmod : status % 256 = status := Nat.mod_eq_of_lt hs
      have hblen : ((status % 256) :: u32be ref).length = 5 := by simp [u32be]
      have hframe : buildDown (.message status ref none)
          = u32be ((status % 256) :: u32be ref).length ++ [PACKET_MESSAGE]
            ++ ((status % 256) :: u32be ref) := by
        rw [hblen]
        simp [buildDown, if_neg hst, List.append_assoc]
      have hparse : parseMessagePacket ((status % 256) :: u32be ref)
          = .ok (.message status ref none) := by
        have h := parseMessage_build_nonok status ref [] hst hr
        rw [hmod]
        simpa using h
      rw [hframe, decoderDecode_append _ _ (by rw [hblen]; omega),
        if_neg (by decide), if_neg (by decide), if_pos rfl, hparse]
      rfl
    | some pl =>
      have hst : status = 0 := by simpa using hiff
      subst hst
      have hblen : ((0 : Nat) :: (u32be ref ++ blobF pl)).length = 9 + pl.length := by
        simp [blobF, u32be]
        omega
      have hframe : buildDown (.message 0 ref (some pl))
          = u32be ((0 : Nat) :: (u32be ref ++ blobF pl)).length ++ [PACKET_MESSAGE]
            ++ ((0 : Nat) :: (u32be ref ++ blobF pl)) := by
        rw [hblen]
        simp [buildDown, List.append_assoc]
      have hpl15 : pl.length ≤ 2 ^ 15 := hlen pl rfl
      rw [hframe, decoderDecode_append _ _ (by rw [hblen]; omega),
        if_neg (by decide), if_neg (by decide), if_pos rfl,
        parseMessage_build_ok ref pl hr (by omega)]
      rfl
  | interest status postref name topic =>
    obtain ⟨hs, hpr, hn, ht⟩ := hp
    have hmod : status % 256 = status := Nat.mod_eq_of_lt hs
    have hblen : (status :: (u32be postref ++ (stringF name ++ blobF topic))).length
        = 10 + topic.length + name.length := by
      simp [stringF, blobF, u32be]
      omega
    have hframe : buildDown (.interest status postref name topic)
        = u32be (status :: (u32be postref ++ (stringF name ++ blobF topic))).length
          ++ [PACKET_INTEREST]
          ++ (status :: (u32be postref ++ (stringF name ++ blobF topic))) := by
      rw [hblen]
      simp [buildDown, hmod, List.append_assoc]
    rw [hframe, decoderDecode_append _ _ (by rw [hblen]; omega),
      if_neg (by decide), if_neg (by decide), if_neg (by decide), if_pos rfl,
      parseInterest_build status postref name topic hpr hn (by omega)]
    rfl
  | ping => decide
  | welcome sv pv =>
    obtain ⟨hsv, hpv⟩ := hp
    have hblen : (u32be sv ++ u32be pv).length = 8 := by simp [u32be]
    have hframe : buildDown (.welcome sv pv)
        = u32be (u32be sv ++ u32be pv).length ++ [PACKET_WELCOME]
          ++ (u32be sv ++ u32be pv) := by
      rw [hblen]
      simp [buildDown, List.append_assoc]
    rw [hframe, decoderDecode_append _ _ (by rw [hblen]; omega),
      if_neg (by decide), if_neg (by decide), if_neg (by decide), if_neg (by decide),
      if_neg (by decide), if_pos rfl, parseWelcome_build sv pv hsv hpv]
    rfl
  | byebye => decide


/-- C7: for every `MESSAGE` frame whose status byte is non-zero, the decoder
yields `payload = None` and its result depends only on the status byte and the
4-byte messageref — every byte after the messageref is ignored (the `rest` of
the frame is universally quantified); and on any successfully decoded
`MESSAGE`, a payload is present iff the status is 0 (ok). -/
theorem message_nonok_ignores_payload :
    (∀ (status ref : Nat) (rest : Bytes), status ≠ 0 → ref < 2 ^ 32 →
      parseMessagePacket (status :: (u32be ref ++ rest)) = .ok (.message status ref none)) ∧
    (∀ (frame : Bytes) (p : DownPacket), parseMessagePacket frame = .ok p →
      ∃ s r pl, p = .message s r pl ∧ (pl.isSome ↔ s = 0)) := by
  constructor
  · exact fun status ref rest hs hr => parseMessage_build_nonok status ref rest hs hr
  · exact fun frame p h => parseMessage_result_shape frame p h

/-- C7 witness: a timeout-status frame with three trailing junk bytes decodes
to `payload = none`, ignoring the junk; and a concrete decoded message
satisfies the payload-iff-ok shape. -/
theorem message_nonok_ignores_payload_witness :
    parseMessagePacket (1 :: (u32be 5 ++ [9, 9, 9])) = .ok (.message 1 5 none) ∧
    (∃ s r pl, DownPacket.message 1 5 none = .message s r pl ∧ (pl.isSome ↔ s = 0)) := by
  constructor
  · exact message_nonok_ignores_payload.1 1 5 [9, 9, 9] (by decide) (by decide)
  · exact message_nonok_ignores_payload.2 [1, 0, 0, 0, 5] (.message 1 5 none) (by decide)

/-- C6 witness: the amended round trip evaluated at a concrete valid packet. -/
theorem buildDown_decode_roundtrip_witness :
    decoderDecode (buildDown .ping) = .ok (some .ping) :=
  buildDown_decode_roundtrip .ping trivial


theorem digit_not_ws (c : Char) (h : c ∈ digitChars) : isPyWs c = false := by
  fin_cases h <;> decide

theorem digit_isDigit (c : Char) (h : c ∈ digitChars) : c.isDigit = true := by
  fin_cases h <;> decide

theorem digit_not_sign (c : Char) (h : c ∈ digitChars) : c ≠ '+' ∧ c ≠ '-' := by
  fin_cases h <;> decide

theorem dropWhile_eq_self_of (p : Char → Bool) (l : List Char)
    (h : ∀ c ∈ l, p c = false) : l.dropWhile p = l := by
  cases l with
  | nil => rfl
  | cons a t =>
    rw [List.dropWhile_cons_of_neg]
    rw [h a (List.mem_cons_self _ _)]
    exact Bool.false_ne_true

theorem stripStr_eq_self (l : List Char) (h : ∀ c ∈ l, isPyWs c = false) :
    stripStr l = l := by
  rw [stripStr, dropWhile_eq_self_of _ _ h,
    dropWhile_eq_self_of _ _ (fun c hc => h c (List.mem_reverse.mp hc)),
    List.reverse_reverse]

theorem pyIntDigitsCore_all_digits (l : List Char) :
    ∀ acc : Nat, (∀ c ∈ l, c.isDigit = true) →
    pyIntDigitsCore acc l = some (l.foldl (fun a c => a * 10 + digitVal c) acc) := by
  induction l with
  | nil => intro acc _; rfl
  | cons a t ih =>
    intro acc h
    have ha : a.isDigit = true := h a (List.mem_cons_self _ _)
    cases t with
    | nil => simp [pyIntDigitsCore, ha]
    | cons b u =>
      rw [pyIntDigitsCore, if_pos ha]
      exact ih _ (fun c hc => h c (List.mem_cons_of_mem _ hc))

theorem pyInt_digits (digits : List Char) (hne : digits ≠ [])
    (h : ∀ c ∈ digits, c ∈ digitChars) :
    pyInt digits = some (Int.ofNat (decimalVal digits)) := by
  obtain ⟨c, cs, rfl⟩ := List.exists_cons_of_ne_nil hne
  have hstrip : stripStr (c :: cs) = c :: cs :=
    stripStr_eq_self _ (fun x hx => digit_not_ws x (h x hx))
  have hc : c ∈ digitChars := h c (List.mem_cons_self _ _)
  have hsign := digit_not_sign c hc
  rw [pyInt, hstrip]
  show (if c = '+' then (pyIntDigits cs).map (fun n => Int.ofNat n)
      else if c = '-' then (pyIntDigits cs).map (fun n => -(Int.ofNat n))
      else (pyIntDigits (c :: cs)).map (fun n => Int.ofNat n))
    = some (Int.ofNat (decimalVal (c :: cs)))
  rw [if_neg hsign.1, if_neg hsign.2, pyIntDigits, if_pos (digit_isDigit c hc),
    pyIntDigitsCore_all_digits cs _ (fun x hx => digit_isDigit x (h x (List.mem_cons_of_mem _ hx)))]
  simp [decimalVal]

theorem findIdx_colon_none (s : List Char) (h : ∀ c ∈ s, c ≠ ':') :
    s.findIdx? (fun c => c == ':') = none := by
  rw [List.findIdx?_eq_none_iff]
  intro x hx
  simpa using h x hx

theorem findIdx_colon_append (host : List Char) (rest : List Char)
    (h : ∀ c ∈ host, c ≠ ':') :
    (host ++ ':' :: rest).findIdx? (fun c => c == ':') = some host.length := by
  rw [List.findIdx?_append, findIdx_colon_none host h]
  simp [List.findIdx?_cons]


/-- C9 counterexample: the claim says the parser raises a `ValueError` for
every address string with a missing host.  It does not: `":1234"` parses to
the pair `("", 1234)` with an empty host — confirmed by the repository's own
test (`test_host_port_parser_2`). -/
theorem host_port_empty_host_counterexample :
    hostPortParser (':' :: "1234".toList) = .ok ([], 1234) := by decide

/-- C9 (amended): the parser raises a `ValueError` for address strings without
a colon and for those whose port part (after the first colon) is missing or
not numeric; for a digit port it returns the `(host, port)` pair — including
an EMPTY host, which is not rejected. -/
theorem host_port_parse_behavior :
    (∀ s : List Char, (∀ c ∈ s, c ≠ ':') →
      hostPortParser s = .error "No collon found in address") ∧
    (∀ host digits : List Char, (∀ c ∈ host, c ≠ ':') → digits ≠ [] →
      (∀ c ∈ digits, c ∈ digitChars) →
      hostPortParser (host ++ ':' :: digits)
        = .ok (host, Int.ofNat (decimalVal digits))) ∧
    (∀ host : List Char, (∀ c ∈ host, c ≠ ':') →
      hostPortParser (host ++ [':']) = .error "Invalid address") := by
  refine ⟨?_, ?_, ?_⟩
  · intro s h
    rw [hostPortParser, findIdx_colon_none s h]
  · intro host digits hh hne hd
    have hdrop : (host ++ ':' :: digits).drop (host.length + 1) = digits := by
      have hform : host ++ ':' :: digits = (host ++ [':']) ++ digits := by simp
      rw [hform]
      exact List.drop_left' (by simp)
    have htake : (host ++ ':' :: digits).take host.length = host :=
      List.take_left' rfl
    simp only [hostPortParser, findIdx_colon_append host digits hh, hdrop,
      pyInt_digits digits hne hd, htake]
  · intro host hh
    have hdrop : (host ++ [':']).drop (host.length + 1) = [] := by
      rw [List.drop_eq_nil_of_le]
      simp
    simp only [hostPortParser, findIdx_colon_append host [] hh, hdrop]
    rfl

/-- C9 witness: a plain `host:1234` address parses to the pair, a colon-free
address and an empty port are rejected. -/
theorem host_port_parse_behavior_witness :
    hostPortParser ("host".toList ++ ':' :: "1234".toList)
      = .ok ("host".toList, Int.ofNat (decimalVal "1234".toList)) ∧
    hostPortParser "1234".toList = .error "No collon found in address" ∧
    hostPortParser ("host".toList ++ [':']) = .error "Invalid address" := by
  refine ⟨?_, ?_, ?_⟩
  · exact host_port_parse_behavior.2.1 "host".toList "1234".toList (by decide)
      (by decide) (by decide)
  · exact host_port_parse_behavior.1 "1234".toList (by decide)
  · exact host_port_parse_behavior.2.2 "host".toList (by decide)

end Nervix
